import Mathlib

/-!
Verification of the crabberbot request-orchestration core.

This file gives a shallow embedding, in Lean 4, of the parts of the Rust
sources relevant to the frozen claims: the media-type classification and the
metadata validator (`src/validator.rs`), the caption builder and the download
post-processing (`src/downloader.rs`), the URL canonicalization, the file
cleanup guard and the request pipeline (`src/handler.rs`), and the per-chat
concurrency limiter (`src/concurrency.rs`).

Modelling conventions:
- Rust `f64` fields (`duration`) are embedded as `ℚ`; the comparisons the code
  performs are exact on every finite double, so the embedding is faithful on
  finite values (NaN, which compares false against every bound, is not
  modelled).
- `PathBuf` and provider file ids are embedded as `String`.
- Strings standing for URL components are treated byte-wise: every `Char` of
  such a string stands for one byte of the Rust string (exact for ASCII data,
  and for percent-encoded data since the url crate escapes non-ASCII bytes
  individually).
- Effectful external calls (storage, chat transport, the yt-dlp process) are
  modelled by an environment record holding each call's result; the pipeline
  is then a pure function from that environment to the list of observable
  events it performs, in order.
-/

namespace Crabberbot

/-! ## Media types (src/downloader.rs) -/

/-- Embeds `enum MediaType` from `src/downloader.rs`. -/
inductive MediaType where
  | Video
  | Photo
deriving DecidableEq, Repr

/-- Embeds `MediaType::from_extension`. -/
def MediaType.from_extension (ext : String) : Option MediaType :=
  if ext = "mp4" ∨ ext = "webm" ∨ ext = "gif" ∨ ext = "mov" ∨ ext = "mkv" then
    some MediaType.Video
  else if ext = "jpg" ∨ ext = "jpeg" ∨ ext = "png" ∨ ext = "webp" ∨ ext = "heic" then
    some MediaType.Photo
  else
    none

/-! ## Pre-download metadata (struct `MediaInfo` in src/downloader.rs)

The Rust struct is recursive through `entries: Option<Vec<MediaInfo>>`, so it
is embedded as a nested inductive with explicit projection functions. -/

/-- Embeds `struct MediaInfo` from `src/downloader.rs` (the validator refers to
the same shape under the name `MediaMetadata`; the fields it reads — `entries`,
`media_type`, `duration`, `filesize` — are identical). -/
inductive MediaInfo where
  | mk
    (id : String)
    (title : Option String)
    (description : Option String)
    (media_type : Option String)
    (uploader : Option String)
    (playlist_uploader : Option String)
    (thumbnail : Option String)
    (duration : Option ℚ)
    (filesize : Option ℕ)
    (entries : Option (List MediaInfo))
    (resolution : Option String)
    (width : Option ℕ)
    (height : Option ℕ)

def MediaInfo.id : MediaInfo → String
  | .mk i _ _ _ _ _ _ _ _ _ _ _ _ => i

def MediaInfo.title : MediaInfo → Option String
  | .mk _ t _ _ _ _ _ _ _ _ _ _ _ => t

def MediaInfo.description : MediaInfo → Option String
  | .mk _ _ d _ _ _ _ _ _ _ _ _ _ => d

def MediaInfo.media_type : MediaInfo → Option String
  | .mk _ _ _ m _ _ _ _ _ _ _ _ _ => m

def MediaInfo.uploader : MediaInfo → Option String
  | .mk _ _ _ _ u _ _ _ _ _ _ _ _ => u

def MediaInfo.playlist_uploader : MediaInfo → Option String
  | .mk _ _ _ _ _ p _ _ _ _ _ _ _ => p

def MediaInfo.thumbnail : MediaInfo → Option String
  | .mk _ _ _ _ _ _ th _ _ _ _ _ _ => th

def MediaInfo.duration : MediaInfo → Option ℚ
  | .mk _ _ _ _ _ _ _ d _ _ _ _ _ => d

def MediaInfo.filesize : MediaInfo → Option ℕ
  | .mk _ _ _ _ _ _ _ _ f _ _ _ _ => f

def MediaInfo.entries : MediaInfo → Option (List MediaInfo)
  | .mk _ _ _ _ _ _ _ _ _ e _ _ _ => e

/-! ## Validator (src/validator.rs) -/

def MAX_DURATION_SECONDS : ℚ := 600
def MAX_FILESIZE_BYTES : ℕ := 500 * 1024 * 1024
def MAX_VIDEO_PLAYLIST_ITEMS : ℕ := 5
def MAX_IMAGE_PLAYLIST_ITEMS : ℕ := 10

/-- Embeds `enum ValidationError` from `src/validator.rs` (payloads only; the
user-facing message formatting is not modelled). -/
inductive ValidationError where
  | TooLong (found limit : ℚ)
  | TooLarge (found_mb limit_mb : ℕ)
  | TooManyItems (found limit : ℕ)
deriving DecidableEq, Repr

/-- Embeds `validate_media_metadata` from `src/validator.rs`. -/
def validate_media_metadata (metadata : MediaInfo) : Except ValidationError Unit :=
  match metadata.entries with
  | some entries =>
    let is_video_playlist : Bool :=
      match entries.head? with
      | some entry =>
        match entry.media_type with
        | some m_type => m_type = "video"
        | none => false
      | none => false
    let limit := if is_video_playlist then MAX_VIDEO_PLAYLIST_ITEMS else MAX_IMAGE_PLAYLIST_ITEMS
    if entries.length > limit then
      .error (.TooManyItems entries.length limit)
    else
      .ok ()
  | none =>
    match metadata.duration with
    | some duration =>
      if duration > MAX_DURATION_SECONDS then
        .error (.TooLong (duration / 60) (MAX_DURATION_SECONDS / 60))
      else
        match metadata.filesize with
        | some filesize =>
          if filesize > MAX_FILESIZE_BYTES then
            .error (.TooLarge (filesize / 1024 / 1024) (MAX_FILESIZE_BYTES / 1024 / 1024))
          else
            .ok ()
        | none => .ok ()
    | none =>
      match metadata.filesize with
      | some filesize =>
        if filesize > MAX_FILESIZE_BYTES then
          .error (.TooLarge (filesize / 1024 / 1024) (MAX_FILESIZE_BYTES / 1024 / 1024))
        else
          .ok ()
      | none => .ok ()

/-- Classification of the first child used by the playlist branch of the
validator: true exactly when the first entry exists and carries
media_type `"video"`. -/
def firstChildIsVideo (entries : List MediaInfo) : Bool :=
  match entries.head? with
  | some entry =>
    match entry.media_type with
    | some m_type => m_type = "video"
    | none => false
  | none => false

/-! Concrete descriptors used by the validator witnesses. -/

def videoChild : MediaInfo :=
  .mk "c" none none (some "video") none none none none none none none none none

def photoChild : MediaInfo :=
  .mk "c" none none (some "photo") none none none none none none none none none

def playlist6video : MediaInfo :=
  .mk "p" none none none none none none none none (some (List.replicate 6 videoChild)) none none none

def playlist6photo : MediaInfo :=
  .mk "p" none none none none none none none none (some (List.replicate 6 photoChild)) none none none

def singleSmall : MediaInfo :=
  .mk "s" none none none none none none (some 300) (some 1000) none none none none

/-- C6: a descriptor with child descriptors is rejected exactly when the child
count exceeds the type-dependent ceiling picked from the first child's
classification — 5 when the first child is classified video, 10 otherwise. -/
theorem validate_playlist_ceiling (m : MediaInfo) (es : List MediaInfo)
    (h : m.entries = some es) :
    validate_media_metadata m =
      if es.length > (if firstChildIsVideo es then 5 else 10) then
        .error (.TooManyItems es.length (if firstChildIsVideo es then 5 else 10))
      else
        .ok () := by
  unfold validate_media_metadata
  rw [h]
  simp only [firstChildIsVideo, MAX_VIDEO_PLAYLIST_ITEMS, MAX_IMAGE_PLAYLIST_ITEMS]

/-- C6 witness: 6 video-typed children (ceiling 5) are rejected while 6
photo-typed children (ceiling 10) are accepted. -/
theorem validate_playlist_ceiling_witness :
    validate_media_metadata playlist6video = .error (.TooManyItems 6 5) ∧
    validate_media_metadata playlist6photo = .ok () := by
  refine ⟨?_, ?_⟩
  · have h := validate_playlist_ceiling playlist6video (List.replicate 6 videoChild) rfl
    rw [h]
    rfl
  · have h := validate_playlist_ceiling playlist6photo (List.replicate 6 photoChild) rfl
    rw [h]
    rfl

/-- C7: a descriptor without child descriptors validates exactly when its
duration (if present) is at most the 600-second ceiling and its approximate
filesize (if present) is at most the 500 MiB ceiling; absence of a field is
never a violation, and a descriptor with both fields absent always
validates. -/
theorem validate_single_limits (m : MediaInfo) (h : m.entries = none) :
    (validate_media_metadata m = .ok () ↔
      ((∀ d, m.duration = some d → d ≤ MAX_DURATION_SECONDS) ∧
       (∀ s, m.filesize = some s → s ≤ MAX_FILESIZE_BYTES))) ∧
    (m.duration = none → m.filesize = none → validate_media_metadata m = .ok ()) := by
  unfold validate_media_metadata
  rw [h]
  constructor
  · cases hd : m.duration with
    | none =>
      cases hs : m.filesize with
      | none => simp
      | some s =>
        by_cases hbig : s > MAX_FILESIZE_BYTES <;> simp [hbig]
        exact not_lt.mp hbig
    | some d =>
      by_cases hlong : d > MAX_DURATION_SECONDS
      · simp [hlong]
      · cases hs : m.filesize with
        | none =>
          simp [hlong]
          exact not_lt.mp hlong
        | some s =>
          by_cases hbig : s > MAX_FILESIZE_BYTES <;> simp [hlong, hbig]
          exact ⟨not_lt.mp hlong, not_lt.mp hbig⟩
  · intro hd hs
    rw [hd, hs]

/-- C7 witness: a descriptor with duration 300 s and filesize 1000 bytes
validates. -/
theorem validate_single_limits_witness :
    validate_media_metadata singleSmall = .ok () := by
  apply ((validate_single_limits singleSmall rfl).1).mpr
  refine ⟨fun d hd => ?_, fun s hs => ?_⟩
  · cases hd
    norm_num [MAX_DURATION_SECONDS]
  · cases hs
    norm_num [MAX_FILESIZE_BYTES]

/-! ## Caption builder (src/downloader.rs) -/

/-- Expansion of one character under `escape_html`. -/
def escapeChar (c : Char) : List Char :=
  if c = '&' then "&amp;".data
  else if c = '<' then "&lt;".data
  else if c = '>' then "&gt;".data
  else [c]

/-- Embeds `escape_html` from `src/downloader.rs`. The Rust code applies three
sequential single-character `str::replace` calls (first `&`, then `<`, then
`>`); since no replacement string contains a `<` or `>` and the `&` characters
introduced by the later two replacements are produced after the `&` pass, the
composition equals this single character-wise expansion. -/
def escape_html (s : String) : String :=
  String.mk (s.data.map escapeChar).flatten

/-- Header part of `build_caption`: the two hyperlinks. The source URL is
embedded via its serialization (the url crate's `Display` prints `as_str`). -/
def build_caption_header (source_url : String) : String :=
  "<a href=\"" ++ "https://t.me/crabberbot?start=c" ++ "\">CrabberBot</a> 🦀 <a href=\"" ++
    source_url ++ "\">Source</a>"

/-- Quote part of `build_caption` before truncation: italicized escaped
uploader (or playlist uploader), then the escaped trimmed description (or
title), joined by a newline. Lean's `String.trim` removes ASCII whitespace
where Rust's `str::trim` removes Unicode whitespace; the difference is
irrelevant to the claims proved here. -/
def build_caption_quote (info : MediaInfo) : String :=
  let uploader := info.uploader.or info.playlist_uploader
  let parts_uploader : List String :=
    match uploader with
    | some u => if u ≠ "" then ["<i>" ++ escape_html u ++ "</i>"] else []
    | none => []
  let description := info.description.or info.title
  let parts : List String :=
    parts_uploader ++
      (match description with
       | some desc =>
         let desc := desc.trim
         if desc ≠ "" then [escape_html desc] else []
       | none => [])
  String.intercalate "\n" parts

/-- Embeds `build_caption` from `src/downloader.rs`. `1024.saturating_sub` is
Nat subtraction; character counts (`chars().count()`) are `String.length`. -/
def build_caption (info : MediaInfo) (source_url : String) : String :=
  let header := build_caption_header source_url
  let full_quote_content := build_caption_quote info
  let overhead := header.length + 2 + 12 + 13 + 5
  let available_space_for_quote := 1024 - overhead
  let final_quote :=
    if full_quote_content.length > available_space_for_quote then
      String.mk (full_quote_content.data.take available_space_for_quote) ++ "[...]"
    else
      full_quote_content
  header ++ "\n\n<blockquote>" ++ final_quote ++ "</blockquote>"

theorem build_caption_header_length (source_url : String) :
    (build_caption_header source_url).length = 80 + source_url.length := by
  have h9 : ("<a href=\"" : String).length = 9 := rfl
  have h31 : ("https://t.me/crabberbot?start=c" : String).length = 31 := rfl
  have h28 : ("\">CrabberBot</a> 🦀 <a href=\"" : String).length = 28 := rfl
  have h12 : ("\">Source</a>" : String).length = 12 := rfl
  unfold build_caption_header
  simp only [String.length_append, h9, h31, h28, h12]
  omega

def emptyInfo : MediaInfo :=
  .mk "x" none none none none none none none none none none none none

/-- Concrete overlong source URL: 20 + 950 = 970 characters. -/
def longUrl : String := "https://example.com/" ++ String.mk (List.replicate 950 'a')

/-- C2 counterexample: for a 970-character source URL and a descriptor with no
quote material at all, the caption built is 1077 characters long, exceeding
1024 — the header embeds the URL and is never truncated. -/
theorem build_caption_over_limit : 1024 < (build_caption emptyInfo longUrl).length := by
  have hq : build_caption_quote emptyInfo = "" := rfl
  have hu : longUrl.length = 970 := by
    have : (List.replicate 950 'a').length = 950 := List.length_replicate _ _
    simp only [longUrl, String.length_append]
    have h20 : ("https://example.com/" : String).length = 20 := rfl
    have h950 : (String.mk (List.replicate 950 'a')).length = 950 := this
    omega
  have hh : (build_caption_header longUrl).length = 1050 := by
    rw [build_caption_header_length, hu]
  have h14 : ("\n\n<blockquote>" : String).length = 14 := rfl
  have h13 : ("</blockquote>" : String).length = 13 := rfl
  unfold build_caption
  rw [hq]
  simp only [String.length_append, hh, h14, h13]
  norm_num

/-- C2, amended: whenever the source URL serialization has at most 912
characters (so that the untruncatable header plus the fixed markup fits the
1024 budget), the built caption has length at most 1024; the quote is
truncated to the remaining budget with the ellipsis marker appended before the
closing tag, and the result always begins with the untruncated header. -/
theorem build_caption_length_le (info : MediaInfo) (source_url : String)
    (h : source_url.length ≤ 912) :
    (build_caption info source_url).length ≤ 1024 ∧
    (∃ rest, build_caption info source_url = build_caption_header source_url ++ rest) := by
  have hh := build_caption_header_length source_url
  have h14 : ("\n\n<blockquote>" : String).length = 14 := rfl
  have h13 : ("</blockquote>" : String).length = 13 := rfl
  have h5 : ("[...]" : String).length = 5 := rfl
  constructor
  · unfold build_caption
    dsimp only
    split
    · rename_i hgt
      simp only [String.length_append, h14, h13, h5, hh]
      have htake : (String.mk ((build_caption_quote info).data.take
          (1024 - ((build_caption_header source_url).length + 2 + 12 + 13 + 5)))).length =
          min (1024 - ((build_caption_header source_url).length + 2 + 12 + 13 + 5))
            (build_caption_quote info).length := by
        show ((build_caption_quote info).data.take _).length = _
        rw [List.length_take]
        rfl
      rw [hh] at htake
      rw [htake]
      have hqlen : (build_caption_quote info).length =
          (build_caption_quote info).data.length := rfl
      rw [hh] at hgt
      omega
    · rename_i hle
      simp only [String.length_append, h14, h13, hh]
      rw [hh] at hle
      omega
  · refine ⟨"\n\n<blockquote>" ++
      ((if (build_caption_quote info).length >
          1024 - ((build_caption_header source_url).length + 2 + 12 + 13 + 5) then
        String.mk ((build_caption_quote info).data.take
          (1024 - ((build_caption_header source_url).length + 2 + 12 + 13 + 5))) ++ "[...]"
      else build_caption_quote info) ++ "</blockquote>"), ?_⟩
    unfold build_caption
    dsimp only
    rw [String.append_assoc, String.append_assoc]

/-- C2 witness: a short concrete URL satisfies the hypothesis and the caption
stays within the 1024-character budget, beginning with the header. -/
theorem build_caption_length_le_witness :
    ("https://example.com/v" : String).length ≤ 912 ∧
    (build_caption emptyInfo "https://example.com/v").length ≤ 1024 := by
  refine ⟨by decide, ?_⟩
  exact (build_caption_length_le emptyInfo "https://example.com/v" (by decide)).1

/-! ## URL model and canonicalization (src/handler.rs, `cleanup_url`)

The url crate's `Url` is modelled by its components; `query_pairs` performs
form-urlencoded parsing (split on `&`, split each nonempty piece at its first
`=`, percent-decode with `+` standing for space) and `set_query` writes the
given string percent-encoding the query encode set (C0 controls, bytes above
0x7E, space, double quote, hash, less-than, greater-than, and apostrophe for
special schemes). Strings are byte-wise: each Char stands for one byte; the
`from_utf8_lossy` step of the Rust decoder is modelled as the identity on
bytes, which is exact whenever the decoded bytes are valid UTF-8. -/

/-- Component model of `url::Url` (components not touched or read by
`cleanup_url` beyond these are omitted). -/
structure Urlm where
  scheme : String
  host : Option String
  path : String
  query : Option String
  fragment : Option String
deriving DecidableEq, Repr

/-- Special schemes of the URL standard, as in the url crate. -/
def Urlm.is_special (u : Urlm) : Bool :=
  ["http", "https", "ws", "wss", "ftp", "file"].contains u.scheme

def Urlm.host_str (u : Urlm) : Option String := u.host

/-- Value of a hexadecimal digit character, if any. -/
def hexDigitVal (c : Char) : Option ℕ :=
  if '0' ≤ c ∧ c ≤ '9' then some (c.toNat - '0'.toNat)
  else if 'a' ≤ c ∧ c ≤ 'f' then some (c.toNat - 'a'.toNat + 10)
  else if 'A' ≤ c ∧ c ≤ 'F' then some (c.toNat - 'A'.toNat + 10)
  else none

/-- Form-urlencoded decoding of one component: `+` becomes space, `%XX` with
two hex digits becomes the byte XX, an invalid escape is kept verbatim. -/
def percentDecodePlus : List Char → List Char
  | [] => []
  | '%' :: a :: b :: rest2 =>
    match hexDigitVal a, hexDigitVal b with
    | some ha, some hb => Char.ofNat (16 * ha + hb) :: percentDecodePlus rest2
    | _, _ => '%' :: percentDecodePlus (a :: b :: rest2)
  | '+' :: rest => ' ' :: percentDecodePlus rest
  | c :: rest => c :: percentDecodePlus rest

/-- Splits a character list on `&`, keeping empty pieces (they are filtered
out afterwards, as the Rust parser skips empty sequences). -/
def querySplit : List Char → List (List Char)
  | [] => [[]]
  | c :: rest =>
    if c = '&' then [] :: querySplit rest
    else
      match querySplit rest with
      | [] => [[c]]
      | piece :: more => (c :: piece) :: more

/-- Splits a piece at its first `=`: key before, value after (empty when no
`=` occurs). -/
def splitFirstEq : List Char → List Char × List Char
  | [] => ([], [])
  | c :: rest =>
    if c = '=' then ([], rest)
    else
      let kv := splitFirstEq rest
      (c :: kv.1, kv.2)

/-- Embeds `Url::query_pairs`: form-urlencoded pairs of the query string. -/
def Urlm.query_pairs (u : Urlm) : List (String × String) :=
  match u.query with
  | none => []
  | some q =>
    ((querySplit q.data).filter (· ≠ [])).map fun piece =>
      let kv := splitFirstEq piece
      (String.mk (percentDecodePlus kv.1), String.mk (percentDecodePlus kv.2))

/-- Membership in the query percent-encode set of the url crate (the special
variant additionally escapes the apostrophe). -/
def isQueryEscaped (special : Bool) (c : Char) : Bool :=
  c.toNat < 0x20 || c.toNat > 0x7E || c = ' ' || c = '"' || c = '#' || c = '<' || c = '>' ||
    (special && c = '\'')

/-- Uppercase hexadecimal digit of a value below 16. -/
def hexUpper (n : ℕ) : Char :=
  if n < 10 then Char.ofNat ('0'.toNat + n) else Char.ofNat ('A'.toNat + n - 10)

/-- Percent-encoding of one byte under the query encode set. -/
def encodeQueryChar (special : Bool) (c : Char) : List Char :=
  if isQueryEscaped special c then ['%', hexUpper (c.toNat / 16 % 16), hexUpper (c.toNat % 16)]
  else [c]

def encodeQuery (special : Bool) (s : String) : String :=
  String.mk (s.data.map (encodeQueryChar special)).flatten

/-- Embeds `Url::set_query`: `None` clears the query, `Some` writes the string
percent-encoded with the (special) query encode set. -/
def Urlm.set_query (u : Urlm) (q : Option String) : Urlm :=
  { u with query := q.map (encodeQuery u.is_special) }

/-- Kernel-reducible equivalent of `str::ends_with`: character-suffix test. -/
def strEndsWith (s t : String) : Bool :=
  List.isSuffixOf t.data s.data

/-- Host test performed by `cleanup_url`: the host ends with `youtube.com` or
equals `youtu.be`. -/
def isYoutube (u : Urlm) : Bool :=
  (u.host_str.map fun h => strEndsWith h "youtube.com" || h == "youtu.be").getD false

/-- Embeds `cleanup_url` from `src/handler.rs`. -/
def cleanup_url (original_url : Urlm) : Urlm :=
  let cleaned_url := { original_url with fragment := none }
  if isYoutube cleaned_url then
    match (original_url.query_pairs.find? fun kv => kv.1 == "v").map Prod.snd with
    | some video_id => cleaned_url.set_query (some ("v=" ++ video_id))
    | none => cleaned_url.set_query none
  else
    cleaned_url.set_query none

/-- Well-behaved retained value: a byte string whose bytes survive the
re-serialization round trip (no `&`, `+` or `%`). -/
def goodV (s : String) : Bool :=
  s.data.all fun c => decide (c.toNat < 256) && !(c == '&') && !(c == '+') && !(c == '%')

theorem percentDecodePlus_plain (c : Char) (rest : List Char) (h1 : c ≠ '%') (h2 : c ≠ '+') :
    percentDecodePlus (c :: rest) = c :: percentDecodePlus rest := by
  rcases rest with _ | ⟨a, _ | ⟨b, r⟩⟩ <;> simp [percentDecodePlus, h1, h2]

theorem hexDigitVal_hexUpper (n : ℕ) (h : n < 16) : hexDigitVal (hexUpper n) = some n := by
  interval_cases n <;> decide

theorem hexUpper_ne_amp (n : ℕ) (h : n < 16) : hexUpper n ≠ '&' := by
  interval_cases n <;> decide

theorem percentDecode_encode (special : Bool) (v : List Char)
    (hv : ∀ c ∈ v, c.toNat < 256 ∧ c ≠ '&' ∧ c ≠ '+' ∧ c ≠ '%') :
    percentDecodePlus ((v.map (encodeQueryChar special)).flatten) = v := by
  induction v with
  | nil => rfl
  | cons c v ih =>
    obtain ⟨hb, _, hplus, hpct⟩ := hv c (by simp)
    have hrest : ∀ x ∈ v, x.toNat < 256 ∧ x ≠ '&' ∧ x ≠ '+' ∧ x ≠ '%' :=
      fun x hx => hv x (by simp [hx])
    by_cases hesc : isQueryEscaped special c = true
    · have hhi : hexDigitVal (hexUpper (c.toNat / 16 % 16)) = some (c.toNat / 16 % 16) :=
        hexDigitVal_hexUpper _ (Nat.mod_lt _ (by norm_num))
      have hlo : hexDigitVal (hexUpper (c.toNat % 16)) = some (c.toNat % 16) :=
        hexDigitVal_hexUpper _ (Nat.mod_lt _ (by norm_num))
      have hnat : 16 * (c.toNat / 16 % 16) + c.toNat % 16 = c.toNat := by omega
      simp only [List.map_cons, List.flatten_cons, encodeQueryChar, hesc, if_true,
        List.cons_append, List.nil_append, percentDecodePlus, hhi, hlo, ih hrest, hnat,
        Char.ofNat_toNat]
    · simp only [List.map_cons, List.flatten_cons, encodeQueryChar, hesc,
        Bool.false_eq_true, if_false, List.cons_append, List.nil_append]
      rw [percentDecodePlus_plain c _ hpct hplus, ih hrest]

theorem encode_flatten_no_amp (special : Bool) (v : List Char) (hv : ∀ c ∈ v, c ≠ '&') :
    '&' ∉ (v.map (encodeQueryChar special)).flatten := by
  intro hmem
  rw [List.mem_flatten] at hmem
  obtain ⟨l, hl, hcl⟩ := hmem
  rw [List.mem_map] at hl
  obtain ⟨c, hcv, rfl⟩ := hl
  unfold encodeQueryChar at hcl
  by_cases hesc : isQueryEscaped special c = true
  · rw [if_pos hesc] at hcl
    simp only [List.mem_cons, List.not_mem_nil, or_false] at hcl
    rcases hcl with h1 | h2 | h3
    · exact absurd h1 (by decide)
    · exact hexUpper_ne_amp _ (Nat.mod_lt _ (by norm_num)) h2.symm
    · exact hexUpper_ne_amp _ (Nat.mod_lt _ (by norm_num)) h3.symm
  · rw [if_neg hesc] at hcl
    simp only [List.mem_singleton] at hcl
    exact hv c hcv hcl.symm

theorem querySplit_no_amp (l : List Char) (h : '&' ∉ l) : querySplit l = [l] := by
  induction l with
  | nil => rfl
  | cons c rest ih =>
    have hc : c ≠ '&' := fun e => h (e ▸ List.mem_cons_self _ _)
    have hr : '&' ∉ rest := fun m => h (List.mem_cons_of_mem _ m)
    simp [querySplit, hc, ih hr]

theorem splitFirstEq_v (rest : List Char) : splitFirstEq ('v' :: '=' :: rest) = (['v'], rest) := by
  simp [splitFirstEq]

theorem encodeQueryChar_v (special : Bool) : encodeQueryChar special 'v' = ['v'] := by
  cases special <;> decide

theorem encodeQueryChar_eq (special : Bool) : encodeQueryChar special '=' = ['='] := by
  cases special <;> decide

/-- Parsing the re-serialized `v=value` query of a well-behaved value yields
exactly the pair `(v, value)` back. -/
theorem query_pairs_enc (u : Urlm) (special : Bool) (val : String)
    (hq : u.query = some (encodeQuery special ("v=" ++ val)))
    (hv : ∀ c ∈ val.data, c.toNat < 256 ∧ c ≠ '&' ∧ c ≠ '+' ∧ c ≠ '%') :
    u.query_pairs = [("v", val)] := by
  have hdata : (encodeQuery special ("v=" ++ val)).data =
      'v' :: '=' :: (val.data.map (encodeQueryChar special)).flatten := by
    show ((("v=" ++ val).data).map (encodeQueryChar special)).flatten = _
    have : ("v=" ++ val).data = 'v' :: '=' :: val.data := by
      rw [String.data_append]
      rfl
    rw [this]
    simp [encodeQueryChar_v, encodeQueryChar_eq]
  have hnoamp : '&' ∉ 'v' :: '=' :: (val.data.map (encodeQueryChar special)).flatten := by
    intro hmem
    simp only [List.mem_cons] at hmem
    rcases hmem with h1 | h2 | h3
    · exact absurd h1 (by decide)
    · exact absurd h2 (by decide)
    · exact encode_flatten_no_amp special val.data (fun c hc => (hv c hc).2.1) h3
  unfold Urlm.query_pairs
  rw [hq]
  dsimp only
  rw [hdata, querySplit_no_amp _ hnoamp]
  simp only [List.filter_cons, List.filter_nil]
  rw [if_pos (by simp)]
  simp only [List.map_cons, List.map_nil, splitFirstEq_v]
  rw [show percentDecodePlus ['v'] = ['v'] from by decide,
    percentDecode_encode special val.data hv]

/-- Closed form of `cleanup_url`. -/
theorem cleanup_url_eq (u : Urlm) :
    cleanup_url u =
      { u with fragment := none,
               query :=
                 if isYoutube { u with fragment := none } then
                   ((u.query_pairs.find? fun kv => kv.1 == "v").map Prod.snd).map
                     (fun video_id => encodeQuery u.is_special ("v=" ++ video_id))
                 else none } := by
  unfold cleanup_url Urlm.set_query
  dsimp only
  split
  · rename_i hyt
    cases hf : (u.query_pairs.find? fun kv => kv.1 == "v").map Prod.snd with
    | none => simp [hf, hyt, Urlm.is_special]
    | some video_id => simp [hf, hyt, Urlm.is_special]
  · rename_i hyt
    simp only [Bool.not_eq_true] at hyt
    simp [hyt]

/-- Concrete YouTube URL whose `v` parameter value percent-encodes an
ampersand. -/
def ytAmpUrl : Urlm := ⟨"https", some "www.youtube.com", "/watch", some "v=a%26b", none⟩

/-- C8 counterexample: `cleanup_url` is not idempotent. On
`https://www.youtube.com/watch?v=a%26b` the first pass decodes the `v` value
to `a&b` and re-serializes the query as `v=a&b` (the url crate does not escape
`&` in queries); the second pass re-parses that query as two pairs and
retains only `v=a`. -/
theorem cleanup_url_not_idempotent :
    cleanup_url (cleanup_url ytAmpUrl) ≠ cleanup_url ytAmpUrl := by decide

/-- C8, amended: `cleanup_url` always strips the fragment, keeps only the
first `v` query parameter for a recognized video-hosting host and strips the
query entirely otherwise, and applying it twice equals applying it once
provided the retained `v` value (a byte string) decodes to bytes containing
no `&`, `+` or `%`; a percent-encoded `&` inside the `v` value breaks
idempotence. -/
theorem cleanup_url_idempotent_on_good (u : Urlm)
    (h : ((u.query_pairs.find? fun kv => kv.1 == "v").map Prod.snd).all goodV = true) :
    cleanup_url (cleanup_url u) = cleanup_url u := by
  obtain ⟨sch, host, path, q, frag⟩ := u
  rw [cleanup_url_eq, cleanup_url_eq]
  dsimp only [isYoutube, Urlm.host_str, Urlm.is_special]
  simp only [Urlm.mk.injEq, eq_self_iff_true, true_and, and_true]
  cases hyt : (host.map fun h => strEndsWith h "youtube.com" || h == "youtu.be").getD false with
  | false => simp [hyt]
  | true =>
    simp only [hyt, if_true]
    cases hf : (Urlm.query_pairs ⟨sch, host, path, q, frag⟩).find? fun kv => kv.1 == "v" with
    | none =>
      simp only [hf, Option.map_none', if_true]
      have : (Urlm.query_pairs ⟨sch, host, path, none, none⟩) = [] := rfl
      simp [Urlm.query_pairs]
    | some kv =>
      rw [hf] at h
      simp only [Option.map_some', Option.all_some, goodV, List.all_eq_true] at h
      have hv : ∀ c ∈ kv.2.data, c.toNat < 256 ∧ c ≠ '&' ∧ c ≠ '+' ∧ c ≠ '%' := by
        intro c hc
        have := h c hc
        simp only [Bool.and_eq_true, decide_eq_true_eq, Bool.not_eq_eq_eq_not,
          Bool.not_true, beq_eq_false_iff_ne] at this
        exact ⟨this.1.1.1, this.1.1.2, this.1.2, this.2⟩
      simp only [hf, Option.map_some']
      have hpairs := query_pairs_enc
        ⟨sch, host, path,
          some (encodeQuery (["http", "https", "ws", "wss", "ftp", "file"].contains sch)
            ("v=" ++ kv.2)), none⟩
        (["http", "https", "ws", "wss", "ftp", "file"].contains sch) kv.2 rfl hv
      rw [hpairs]
      simp [List.find?]

/-- C8 witness: a plain YouTube watch URL with an alphanumeric video id
satisfies the hypothesis and canonicalizes idempotently. -/
theorem cleanup_url_idempotent_on_good_witness :
    cleanup_url (cleanup_url ⟨"https", some "www.youtube.com", "/watch",
        some "v=abc123&t=10s", some "frag"⟩) =
      cleanup_url ⟨"https", some "www.youtube.com", "/watch", some "v=abc123&t=10s",
        some "frag"⟩ :=
  cleanup_url_idempotent_on_good _ (by decide)

/-! ## Downloaded media and the file cleanup guard (src/downloader.rs,
src/handler.rs) -/

/-- Embeds `struct DownloadedItem`. -/
structure DownloadedItem where
  filepath : String
  media_type : MediaType
  thumbnail_filepath : Option String
deriving DecidableEq, Repr

/-- Embeds `enum DownloadedMedia`. -/
inductive DownloadedMedia where
  | Single (item : DownloadedItem)
  | Group (items : List DownloadedItem)
deriving DecidableEq, Repr

/-- Embeds `struct FileCleanupGuard` from `src/handler.rs`. -/
structure FileCleanupGuard where
  paths : List String
deriving DecidableEq, Repr

/-- Embeds `FileCleanupGuard::from_downloaded_media`. -/
def FileCleanupGuard.from_downloaded_media : DownloadedMedia → FileCleanupGuard
  | .Single item =>
    ⟨item.filepath ::
      (match item.thumbnail_filepath with
       | some thumb => [thumb]
       | none => [])⟩
  | .Group items => ⟨items.map (·.filepath)⟩

/-- Embeds `Drop for FileCleanupGuard`: `mem::take` empties the held list and
the spawned task submits each taken path to `remove_file` once, in order; the
returned list is the sequence of deletion submissions. -/
def FileCleanupGuard.drop_submissions (g : FileCleanupGuard) : List String :=
  g.paths

/-! ## Concurrency limiter (src/concurrency.rs)

The `DashSet<ChatId>` of in-flight chats is modelled as a `Finset ℤ`; the
atomic `insert` returning whether the id was newly inserted is the
test-and-insert in `try_lock`. -/

/-- Embeds `struct LockGuard` (the set reference is implicit: state is passed
explicitly). -/
structure LockGuard where
  id : ℤ
deriving DecidableEq, Repr

/-- Embeds `ConcurrencyLimiter::try_lock`: atomic test-and-insert; returns the
guard (if acquired) and the updated held set. -/
def try_lock (held : Finset ℤ) (chat_id : ℤ) : Option LockGuard × Finset ℤ :=
  if chat_id ∈ held then (none, held)
  else (some ⟨chat_id⟩, insert chat_id held)

/-- Embeds `Drop for LockGuard`: removes the chat id from the held set
unconditionally. -/
def LockGuard.dropLock (g : LockGuard) (held : Finset ℤ) : Finset ℤ :=
  held.erase g.id

/-- C3: at most one guard per chat between acquire and release — acquiring a
held chat returns Busy (None) and leaves the set unchanged; acquiring an
unheld chat returns a guard, inserts the chat, makes a second acquire before
release return Busy (exactly one of the two succeeds), and dropping the guard
restores the set; dropping a guard removes its chat unconditionally. -/
theorem try_lock_single_flight (held : Finset ℤ) (chat : ℤ) :
    (chat ∈ held → try_lock held chat = (none, held)) ∧
    (chat ∉ held →
      (try_lock held chat).1 = some ⟨chat⟩ ∧
      (try_lock held chat).2 = insert chat held ∧
      (try_lock (try_lock held chat).2 chat).1 = none ∧
      LockGuard.dropLock ⟨chat⟩ (try_lock held chat).2 = held) ∧
    (∀ g : LockGuard, g.id ∉ g.dropLock held ∧ g.dropLock held = held.erase g.id) := by
  refine ⟨fun hmem => by simp [try_lock, hmem], fun hmem => ?_, fun g => ?_⟩
  · refine ⟨by simp [try_lock, hmem], by simp [try_lock, hmem], ?_, ?_⟩
    · simp [try_lock, hmem]
    · simp [try_lock, hmem, LockGuard.dropLock, Finset.erase_insert hmem]
  · exact ⟨Finset.not_mem_erase _ _, rfl⟩

/-- C3 witness: with an empty held set and chat 7, the first acquire succeeds,
the second returns Busy, and release restores the empty set. -/
theorem try_lock_single_flight_witness :
    (try_lock ∅ 7).1 = some ⟨7⟩ ∧
    (try_lock (try_lock ∅ 7).2 7).1 = none ∧
    LockGuard.dropLock ⟨7⟩ (try_lock ∅ 7).2 = ∅ := by
  have h := (try_lock_single_flight ∅ 7).2.1 (Finset.not_mem_empty 7)
  exact ⟨h.1, h.2.2.1, h.2.2.2⟩

/-! ## Download post-processing (src/downloader.rs, `download_media`)

The effectful parts of `download_media` (running yt-dlp, globbing for a
thumbnail) are oracles: the already-parsed `--print-json` output lines stand
in for stdout, and `find_thumbnail_result` stands in for the glob result of
`find_thumbnail`. The `HashMap` keyed by id (later inserts overwriting) is
modelled by a last-match lookup over the lines kept by the insertion filter
(`dl.filepath.is_some()`). -/

/-- Embeds `enum DownloadError`. -/
inductive DownloadError where
  | CommandFailed (s : String)
  | ParsingFailed (s : String)
  | Timeout (secs : ℕ)
deriving DecidableEq, Repr

/-- Embeds `struct DownloadOutputLine`. -/
structure DownloadOutputLine where
  id : String
  filepath : Option String
  ext : Option String
deriving DecidableEq, Repr

/-- Lines that make it into `downloaded_files` (those carrying a filepath). -/
def keptLines (lines : List DownloadOutputLine) : List DownloadOutputLine :=
  lines.filter fun dl => dl.filepath.isSome

/-- HashMap lookup: the last kept line with the given id wins. -/
def mapLookup (lines : List DownloadOutputLine) (key : String) : Option DownloadOutputLine :=
  ((keptLines lines).filter fun dl => dl.id == key).getLast?

/-- Embeds the pure tail of `YtDlpDownloader::download_media` after the yt-dlp
process ran successfully and its stdout lines were parsed. -/
def download_media_postprocess (info : MediaInfo) (lines : List DownloadOutputLine)
    (find_thumbnail_result : Option String) : Except DownloadError DownloadedMedia :=
  let is_single_with_thumbnail := info.entries.isNone && info.thumbnail.isSome
  if (keptLines lines).isEmpty then
    .error (.ParsingFailed "Could not extract any media metadata from yt-dlp output.")
  else
    match info.entries with
    | some entries =>
      let items : List DownloadedItem := entries.filterMap fun entry =>
        (mapLookup lines entry.id).bind fun dl =>
          dl.filepath.bind fun filepath =>
            dl.ext.bind fun ext =>
              (MediaType.from_extension ext).map fun media_type =>
                ⟨filepath, media_type, none⟩
      if items.isEmpty then
        .error (.ParsingFailed "No valid media items found in playlist output.")
      else
        .ok (.Group items)
    | none =>
      match mapLookup lines info.id with
      | none => .error (.ParsingFailed ("No download output for id " ++ info.id))
      | some dl =>
        match dl.filepath with
        | none => .error (.ParsingFailed "Download output missing filepath")
        | some filepath =>
          match dl.ext with
          | none => .error (.ParsingFailed "Download output missing extension")
          | some ext =>
            match MediaType.from_extension ext with
            | none => .error (.ParsingFailed ("Unsupported file extension: " ++ ext))
            | some media_type =>
              .ok (.Single ⟨filepath, media_type,
                if is_single_with_thumbnail then find_thumbnail_result else none⟩)

/-- C10: every item of a Group produced by the downloader has no thumbnail
path — the group branch constructs every item with `thumbnail_filepath:
None`; a thumbnail is attached only in the single-item branch, and only when
the descriptor declares one. -/
theorem group_items_no_thumbnail (info : MediaInfo) (lines : List DownloadOutputLine)
    (thumb : Option String) (items : List DownloadedItem)
    (h : download_media_postprocess info lines thumb = .ok (.Group items)) :
    ∀ item ∈ items, item.thumbnail_filepath = none := by
  intro item hitem
  unfold download_media_postprocess at h
  dsimp only at h
  split at h
  · exact absurd h (by simp)
  · split at h
    · rename_i entries heq
      split at h
      · exact absurd h (by simp)
      · rw [Except.ok.injEq, DownloadedMedia.Group.injEq] at h
        subst h
        rw [List.mem_filterMap] at hitem
        obtain ⟨entry, _, hf⟩ := hitem
        rcases hml : mapLookup lines entry.id with _ | dl <;> rw [hml] at hf
        · simp at hf
        · simp only [Option.some_bind] at hf
          rcases hfp : dl.filepath with _ | fp <;> rw [hfp] at hf
          · simp at hf
          · simp only [Option.some_bind] at hf
            rcases hext : dl.ext with _ | ext <;> rw [hext] at hf
            · simp at hf
            · simp only [Option.some_bind] at hf
              rcases hmt : MediaType.from_extension ext with _ | mt <;> rw [hmt] at hf
              · simp at hf
              · simp only [Option.map_some', Option.some.injEq] at hf
                rw [← hf]
    · split at h
      · exact absurd h (by simp)
      · split at h
        · exact absurd h (by simp)
        · split at h
          · exact absurd h (by simp)
          · split at h
            · exact absurd h (by simp)
            · exact absurd h (by simp)

def entryE1 : MediaInfo :=
  .mk "e1" none none none none none none none none none none none none

/-- Playlist descriptor that even declares a thumbnail: the group branch still
attaches none. -/
def infoGroup : MediaInfo :=
  .mk "p" none none none none none (some "http://t/th.jpg") none none (some [entryE1])
    none none none

def linesGroup : List DownloadOutputLine :=
  [⟨"e1", some "./u.e1.mp4", some "mp4"⟩]

/-- C10 witness: the concrete group download yields the single expected item
and the theorem applies to it. -/
theorem group_items_no_thumbnail_witness :
    (⟨"./u.e1.mp4", MediaType.Video, none⟩ : DownloadedItem).thumbnail_filepath = none :=
  group_items_no_thumbnail infoGroup linesGroup (some "./u.e1.jpg")
    [⟨"./u.e1.mp4", MediaType.Video, none⟩] rfl _ (by simp)

/-! ## Request pipeline (src/handler.rs, `process_download_request`)

External calls are oracles collected in `PipelineEnv`; the pipeline is a pure
function returning the ordered list of observable events (storage reads and
writes, transport sends, user messages, audit log appends, file-deletion
submissions of the cleanup guard). Message texts are abstracted to the
`UserMessage` tag of the message sent (their formatting is irrelevant to the
claims); the elapsed-time argument of `log_request` is real time and is not
modelled. -/

/-- Embeds `struct CachedFile` from `src/storage.rs`. -/
structure CachedFile where
  telegram_file_id : String
  media_type : MediaType
deriving DecidableEq, Repr

/-- Embeds `struct CachedMedia` from `src/storage.rs`. -/
structure CachedMedia where
  caption : String
  files : List CachedFile
deriving DecidableEq, Repr

/-- Embeds `struct SentMedia` from `src/telegram_api.rs`. -/
structure SentMedia where
  file_id : String
  media_type : MediaType
deriving DecidableEq, Repr

/-- Which user-facing text message is sent (texts abstracted to tags). -/
inductive UserMessage where
  | validation (e : ValidationError)
  | couldNotFetch
  | downloadTimeout
  | downloadFailed
  | sendError
  | noSupportedType
deriving DecidableEq, Repr

/-- Observable events of one pipeline run, in order. -/
inductive Event where
  | getCached (url : String)
  | sendCachedVideo (file_id caption : String)
  | sendCachedPhoto (file_id caption : String)
  | sendCachedMediaGroup (files : List CachedFile) (caption : String)
  | sendText (msg : UserMessage)
  | getMetadata (url : String)
  | downloadMedia (url : String)
  | sendVideo (path caption : String) (thumb : Option String)
  | sendPhoto (path caption : String)
  | sendMediaGroup (batch : List (MediaType × String × String))
  | storeCached (url caption : String) (files : List (String × MediaType))
  | logRequest (chat : ℤ) (url status : String)
  | deleteFile (path : String)
deriving DecidableEq, Repr

/-- Results of the external calls a run may perform. `none` on a send result
is a transport error. -/
structure PipelineEnv where
  cached : Option CachedMedia
  cachedSendOk : Bool
  metadata : Except DownloadError MediaInfo
  downloadResult : Except DownloadError DownloadedMedia
  singleSendResult : Option String
  groupSendResult : Option (List SentMedia)

/-- Serialization of the URL model (standard web form; enough for the
pipeline, which only threads the string through). -/
def Urlm.toString (u : Urlm) : String :=
  u.scheme ++ "://" ++ u.host.getD "" ++ u.path ++
    (match u.query with | some q => "?" ++ q | none => "") ++
    (match u.fragment with | some f => "#" ++ f | none => "")

/-- Embeds `send_cached_media`: one cached send call, chosen by shape; the
Bool result is the oracle's outcome of that call. -/
def send_cached_media (cached : CachedMedia) (sendOk : Bool) : List Event × Bool :=
  match cached.files with
  | [file] =>
    (match file.media_type with
     | .Video => ([Event.sendCachedVideo file.telegram_file_id cached.caption], sendOk)
     | .Photo => ([Event.sendCachedPhoto file.telegram_file_id cached.caption], sendOk))
  | files => ([Event.sendCachedMediaGroup files cached.caption], sendOk)

/-- Embeds `pre_download_validation` (step 1): metadata fetch then validation;
returns the events performed and the validated metadata on success. -/
def pre_download_validation (url : String) (metadata : Except DownloadError MediaInfo) :
    List Event × Option MediaInfo :=
  match metadata with
  | .ok info =>
    match validate_media_metadata info with
    | .error e => ([Event.getMetadata url, Event.sendText (.validation e)], none)
    | .ok _ => ([Event.getMetadata url], some info)
  | .error _ => ([Event.getMetadata url, Event.sendText .couldNotFetch], none)

/-- Embeds `download_step` (step 2): the timeout error gets its specific
message, every other error the generic one. -/
def download_step (url : String) (result : Except DownloadError DownloadedMedia) :
    List Event × Option DownloadedMedia :=
  match result with
  | .ok media => ([Event.downloadMedia url], some media)
  | .error e =>
    ([Event.downloadMedia url,
      Event.sendText (match e with | .Timeout _ => .downloadTimeout | _ => .downloadFailed)],
      none)

/-- Embeds `send_single_item` (step 3, branch A). -/
def send_single_item (item : DownloadedItem) (caption : String) (sendResult : Option String) :
    List Event × Option (String × MediaType) :=
  let ev := match item.media_type with
    | .Video => Event.sendVideo item.filepath caption item.thumbnail_filepath
    | .Photo => Event.sendPhoto item.filepath caption
  match sendResult with
  | some file_id => ([ev], some (file_id, item.media_type))
  | none => ([ev, Event.sendText .sendError], none)

/-- Attachment batch of `send_media_group_step`: every item is pushed (both
media types are supported), only index 0 carries the caption. -/
def media_group_batch (items : List DownloadedItem) (caption : String) :
    List (MediaType × String × String) :=
  items.enum.map fun p => (p.2.media_type, p.2.filepath, if p.1 = 0 then caption else "")

/-- Embeds `send_media_group_step` (step 3, branch B). -/
def send_media_group_step (items : List DownloadedItem) (caption : String)
    (groupSendResult : Option (List SentMedia)) : List Event × Option (List SentMedia) :=
  let batch := media_group_batch items caption
  if batch.isEmpty then
    ([Event.sendText .noSupportedType], none)
  else
    match groupSendResult with
    | some sent => ([Event.sendMediaGroup batch], some sent)
    | none => ([Event.sendMediaGroup batch, Event.sendText .sendError], none)

/-- Tail of `process_download_request` from the validation step on (the full
pipeline run after a cache miss or a failed replay). -/
def full_pipeline (env : PipelineEnv) (clean_url_str : String) (chat_id : ℤ) : List Event :=
  let pv := pre_download_validation clean_url_str env.metadata
  match pv.2 with
  | none => pv.1 ++ [Event.logRequest chat_id clean_url_str "validation_error"]
  | some info =>
    let ds := download_step clean_url_str env.downloadResult
    match ds.2 with
    | none => pv.1 ++ ds.1 ++ [Event.logRequest chat_id clean_url_str "error"]
    | some downloaded =>
      let caption := build_caption info clean_url_str
      let guard := FileCleanupGuard.from_downloaded_media downloaded
      let send : List Event × Option (List (String × MediaType)) :=
        match downloaded with
        | .Single item =>
          let r := send_single_item item caption env.singleSendResult
          (r.1, r.2.map fun sent => [sent])
        | .Group items =>
          let r := send_media_group_step items caption env.groupSendResult
          (r.1, r.2.map fun sent => sent.map fun s => (s.file_id, s.media_type))
      let tailEvents :=
        match send.2 with
        | some files =>
          [Event.storeCached clean_url_str caption files,
           Event.logRequest chat_id clean_url_str "success"]
        | none => [Event.logRequest chat_id clean_url_str "error"]
      pv.1 ++ ds.1 ++ send.1 ++ tailEvents ++ guard.drop_submissions.map Event.deleteFile

/-- Embeds `process_download_request` from `src/handler.rs`. -/
def process_download_request (env : PipelineEnv) (url : Urlm) (chat_id : ℤ) : List Event :=
  let clean_url := cleanup_url url
  let clean_url_str := clean_url.toString
  Event.getCached clean_url_str ::
    (match env.cached with
     | some cached =>
       let sc := send_cached_media cached env.cachedSendOk
       if sc.2 then
         sc.1 ++ [Event.logRequest chat_id clean_url_str "cached"]
       else
         sc.1 ++ full_pipeline env clean_url_str chat_id
     | none => full_pipeline env clean_url_str chat_id)

/-! Trace projections and run summaries. -/

/-- Statuses of the audit records appended during a run, in order. -/
def logStatuses (tr : List Event) : List String :=
  tr.filterMap fun e =>
    match e with
    | .logRequest _ _ status => some status
    | _ => none

def isStoreEvent : Event → Bool
  | .storeCached .. => true
  | _ => false

def storeCount (tr : List Event) : ℕ :=
  (tr.filter isStoreEvent).length

def isCachedSendEvent : Event → Bool
  | .sendCachedVideo .. => true
  | .sendCachedPhoto .. => true
  | .sendCachedMediaGroup .. => true
  | _ => false

def cachedSendCount (tr : List Event) : ℕ :=
  (tr.filter isCachedSendEvent).length

/-- File-deletion submissions of a run, in order. -/
def deletions (tr : List Event) : List String :=
  tr.filterMap fun e =>
    match e with
    | .deleteFile p => some p
    | _ => none

/-- Transmission outcome of a full run, as the cached file list on success. -/
def transmit_success (env : PipelineEnv) : DownloadedMedia → Option (List (String × MediaType))
  | .Single item => env.singleSendResult.map fun file_id => [(file_id, item.media_type)]
  | .Group items =>
    if items.isEmpty then none
    else env.groupSendResult.map fun sent => sent.map fun s => (s.file_id, s.media_type)

/-- Audit status of a full pipeline run. -/
def fullRunStatus (env : PipelineEnv) : String :=
  match env.metadata with
  | .error _ => "validation_error"
  | .ok info =>
    match validate_media_metadata info with
    | .error _ => "validation_error"
    | .ok _ =>
      match env.downloadResult with
      | .error _ => "error"
      | .ok downloaded =>
        if (transmit_success env downloaded).isSome then "success" else "error"

/-- Deletion submissions a full run performs: exactly the guard's paths when
the run reaches a successful download, nothing otherwise. -/
def expectedDeletions (env : PipelineEnv) : List String :=
  match env.metadata with
  | .error _ => []
  | .ok info =>
    match validate_media_metadata info with
    | .error _ => []
    | .ok _ =>
      match env.downloadResult with
      | .error _ => []
      | .ok downloaded => (FileCleanupGuard.from_downloaded_media downloaded).drop_submissions

/-- Does the run end in the replay path (cache hit and replay succeeded)? -/
def hitReplayOk (env : PipelineEnv) : Bool :=
  match env.cached with
  | some _ => env.cachedSendOk
  | none => false

theorem media_group_batch_isEmpty (items : List DownloadedItem) (caption : String) :
    (media_group_batch items caption).isEmpty = items.isEmpty := by
  cases items <;> simp [media_group_batch]

theorem deletions_map_deleteFile (ps : List String) :
    deletions (ps.map Event.deleteFile) = ps := by
  induction ps with
  | nil => rfl
  | cons p ps ih =>
    simp only [List.map_cons, deletions, List.filterMap_cons] at ih ⊢
    rw [ih]

theorem filterMap_comp_deleteFile (ps : List String) :
    List.filterMap
      ((fun e =>
        match e with
        | Event.deleteFile p => some p
        | _ => none) ∘ Event.deleteFile) ps = ps := by
  induction ps with
  | nil => rfl
  | cons p ps ih => simp [List.filterMap_cons, ih]

/-- Trace summary of a full pipeline run: exactly one audit record carrying
`fullRunStatus`, a cache store exactly on success, no cached-replay sends, a
metadata fetch, and the deletion submissions of `expectedDeletions`. -/
theorem full_pipeline_props (env : PipelineEnv) (s : String) (chat : ℤ) :
    logStatuses (full_pipeline env s chat) = [fullRunStatus env] ∧
    storeCount (full_pipeline env s chat) = (if fullRunStatus env = "success" then 1 else 0) ∧
    cachedSendCount (full_pipeline env s chat) = 0 ∧
    Event.getMetadata s ∈ full_pipeline env s chat ∧
    deletions (full_pipeline env s chat) = expectedDeletions env := by
  obtain ⟨cached, cok, md, dlr, ssr, gsr⟩ := env
  unfold full_pipeline pre_download_validation download_step fullRunStatus expectedDeletions
    transmit_success
  dsimp only
  cases md with
  | error e =>
    simp [logStatuses, storeCount, cachedSendCount, deletions, isStoreEvent, isCachedSendEvent]
  | ok info =>
    cases hv : validate_media_metadata info with
    | error ve =>
      simp [hv, logStatuses, storeCount, cachedSendCount, deletions, isStoreEvent,
        isCachedSendEvent]
    | ok u =>
      cases dlr with
      | error de =>
        rcases de with s1 | s2 | n <;>
          simp [hv, logStatuses, storeCount, cachedSendCount, deletions, isStoreEvent,
            isCachedSendEvent]
      | ok media =>
        cases media with
        | Single item =>
          obtain ⟨fp, mt, th⟩ := item
          unfold send_single_item
          cases mt <;> cases ssr <;>
            simp [hv, logStatuses, storeCount, cachedSendCount, deletions, isStoreEvent,
              isCachedSendEvent, List.filterMap_append, List.filter_append,
              deletions_map_deleteFile, filterMap_comp_deleteFile, FileCleanupGuard.drop_submissions,
              Function.comp, List.filterMap_some]
        | Group items =>
          unfold send_media_group_step
          by_cases hempty : (media_group_batch items (build_caption info s)).isEmpty = true
          · rw [media_group_batch_isEmpty] at hempty
            simp [hv, hempty, media_group_batch_isEmpty, logStatuses, storeCount, cachedSendCount,
              deletions, isStoreEvent, isCachedSendEvent, List.filterMap_append,
              List.filter_append, deletions_map_deleteFile, filterMap_comp_deleteFile, FileCleanupGuard.drop_submissions,
              Function.comp, List.filterMap_some]
          · rw [media_group_batch_isEmpty] at hempty
            cases gsr <;>
              simp [hv, hempty, media_group_batch_isEmpty, logStatuses, storeCount, cachedSendCount,
                deletions, isStoreEvent, isCachedSendEvent, List.filterMap_append,
                List.filter_append, deletions_map_deleteFile, filterMap_comp_deleteFile, FileCleanupGuard.drop_submissions,
                Function.comp, List.filterMap_some]

theorem send_cached_media_props (c : CachedMedia) (ok : Bool) :
    (send_cached_media c ok).2 = ok ∧
    logStatuses (send_cached_media c ok).1 = [] ∧
    storeCount (send_cached_media c ok).1 = 0 ∧
    cachedSendCount (send_cached_media c ok).1 = 1 ∧
    deletions (send_cached_media c ok).1 = [] := by
  obtain ⟨cap, files⟩ := c
  rcases files with _ | ⟨f, _ | ⟨g, rest⟩⟩
  · simp [send_cached_media, logStatuses, storeCount, cachedSendCount, deletions,
      isStoreEvent, isCachedSendEvent]
  · obtain ⟨fid, mt⟩ := f
    cases mt <;>
      simp [send_cached_media, logStatuses, storeCount, cachedSendCount, deletions,
        isStoreEvent, isCachedSendEvent]
  · simp [send_cached_media, logStatuses, storeCount, cachedSendCount, deletions,
      isStoreEvent, isCachedSendEvent]

theorem logStatuses_append (a b : List Event) :
    logStatuses (a ++ b) = logStatuses a ++ logStatuses b :=
  List.filterMap_append _ _ _

theorem storeCount_append (a b : List Event) :
    storeCount (a ++ b) = storeCount a + storeCount b := by
  simp [storeCount, List.filter_append]

theorem cachedSendCount_append (a b : List Event) :
    cachedSendCount (a ++ b) = cachedSendCount a + cachedSendCount b := by
  simp [cachedSendCount, List.filter_append]

theorem deletions_append (a b : List Event) :
    deletions (a ++ b) = deletions a ++ deletions b :=
  List.filterMap_append _ _ _

theorem logStatuses_getCached (s : String) (tr : List Event) :
    logStatuses (Event.getCached s :: tr) = logStatuses tr := rfl

theorem storeCount_getCached (s : String) (tr : List Event) :
    storeCount (Event.getCached s :: tr) = storeCount tr := rfl

theorem cachedSendCount_getCached (s : String) (tr : List Event) :
    cachedSendCount (Event.getCached s :: tr) = cachedSendCount tr := rfl

theorem deletions_getCached (s : String) (tr : List Event) :
    deletions (Event.getCached s :: tr) = deletions tr := rfl

theorem logStatuses_logRequest (c : ℤ) (url status : String) (tr : List Event) :
    logStatuses (Event.logRequest c url status :: tr) = status :: logStatuses tr := rfl

theorem storeCount_logRequest (c : ℤ) (url status : String) (tr : List Event) :
    storeCount (Event.logRequest c url status :: tr) = storeCount tr := rfl

theorem cachedSendCount_logRequest (c : ℤ) (url status : String) (tr : List Event) :
    cachedSendCount (Event.logRequest c url status :: tr) = cachedSendCount tr := rfl

theorem deletions_logRequest (c : ℤ) (url status : String) (tr : List Event) :
    deletions (Event.logRequest c url status :: tr) = deletions tr := rfl

/-- Trace summary of a whole request: one audit record (`cached` on a
successful replay, the full-run status otherwise), a cache store exactly on a
successful full-run transmission, one cached send per cache hit, a metadata
fetch whenever the replay path is not taken, and deletions exactly when a
download succeeded. -/
theorem process_props (env : PipelineEnv) (u : Urlm) (chat : ℤ) :
    logStatuses (process_download_request env u chat) =
      [if hitReplayOk env then "cached" else fullRunStatus env] ∧
    storeCount (process_download_request env u chat) =
      (if hitReplayOk env = false ∧ fullRunStatus env = "success" then 1 else 0) ∧
    cachedSendCount (process_download_request env u chat) =
      (match env.cached with | some _ => 1 | none => 0) ∧
    (hitReplayOk env = false →
      Event.getMetadata (cleanup_url u).toString ∈ process_download_request env u chat) ∧
    deletions (process_download_request env u chat) =
      (if hitReplayOk env then [] else expectedDeletions env) := by
  obtain ⟨hf1, hf2, hf3, hf4, hf5⟩ :=
    full_pipeline_props env (cleanup_url u).toString chat
  unfold process_download_request hitReplayOk
  dsimp only
  cases hc : env.cached with
  | none =>
    simp only [logStatuses_getCached, storeCount_getCached, cachedSendCount_getCached,
      deletions_getCached, hf1, hf2, hf3, hf5]
    simp [hf4, List.mem_cons]
  | some c =>
    obtain ⟨hs1, hs2, hs3, hs4, hs5⟩ := send_cached_media_props c env.cachedSendOk
    cases hok : env.cachedSendOk with
    | true =>
      rw [hok] at hs1 hs2 hs3 hs4 hs5
      simp only [hs1, if_true, logStatuses_getCached, storeCount_getCached,
        cachedSendCount_getCached, deletions_getCached, logStatuses_append, storeCount_append,
        cachedSendCount_append, deletions_append, logStatuses_logRequest, storeCount_logRequest,
        cachedSendCount_logRequest, deletions_logRequest, hs2, hs3, hs4, hs5]
      simp [logStatuses, storeCount, cachedSendCount, deletions]
    | false =>
      rw [hok] at hs1 hs2 hs3 hs4 hs5
      simp only [hs1, Bool.false_eq_true, if_false, logStatuses_getCached, storeCount_getCached,
        cachedSendCount_getCached, deletions_getCached, logStatuses_append, storeCount_append,
        cachedSendCount_append, deletions_append, hs2, hs3, hs4, hs5, hf1, hf2, hf3, hf5]
      simp [hf4, List.mem_cons, List.mem_append]

theorem fullRunStatus_cases (env : PipelineEnv) :
    fullRunStatus env = "validation_error" ∨ fullRunStatus env = "error" ∨
      fullRunStatus env = "success" := by
  unfold fullRunStatus
  cases hmd : env.metadata with
  | error e => exact Or.inl rfl
  | ok info =>
    dsimp only
    cases hv : validate_media_metadata info with
    | error ve => exact Or.inl rfl
    | ok uu =>
      dsimp only
      cases hd : env.downloadResult with
      | error de => exact Or.inr (Or.inl rfl)
      | ok media =>
        dsimp only
        by_cases hts : (transmit_success env media).isSome
        · exact Or.inr (Or.inr (by simp [hts]))
        · exact Or.inr (Or.inl (by simp [hts]))

theorem fullRunStatus_ne_cached (env : PipelineEnv) : fullRunStatus env ≠ "cached" := by
  rcases fullRunStatus_cases env with h | h | h <;> rw [h] <;> decide

/-- C4: when the cache lookup hits but the replay fails, the run falls through
to the full pipeline (the metadata fetch happens) without retrying the replay
(exactly one cached send), and the single audit record carries a full-run
status, never `cached`. -/
theorem cache_replay_failure_falls_through (env : PipelineEnv) (u : Urlm) (chat : ℤ)
    (c : CachedMedia) (hc : env.cached = some c) (hfail : env.cachedSendOk = false) :
    logStatuses (process_download_request env u chat) = [fullRunStatus env] ∧
    fullRunStatus env ≠ "cached" ∧
    (fullRunStatus env = "validation_error" ∨ fullRunStatus env = "error" ∨
      fullRunStatus env = "success") ∧
    cachedSendCount (process_download_request env u chat) = 1 ∧
    Event.getMetadata (cleanup_url u).toString ∈ process_download_request env u chat := by
  have hro : hitReplayOk env = false := by simp [hitReplayOk, hc, hfail]
  obtain ⟨h1, h2, h3, h4, h5⟩ := process_props env u chat
  refine ⟨?_, fullRunStatus_ne_cached env, fullRunStatus_cases env, ?_, h4 hro⟩
  · rw [h1, hro]
    simp
  · rw [h3, hc]

def itemW : DownloadedItem := ⟨"/tmp/video.mp4", .Video, some "/tmp/thumb.jpg"⟩

def urlW : Urlm := ⟨"https", some "example.com", "/p", none, none⟩

def cachedW : CachedMedia := ⟨"old caption", [⟨"stale_id", .Video⟩]⟩

def envReplayFail : PipelineEnv :=
  ⟨some cachedW, false, .ok singleSmall, .ok (.Single itemW), some "fresh_id", none⟩

/-- C4 witness: a stale cache entry whose replay fails falls through to a full
run that succeeds and is audited as `success`, with exactly one replay
attempt. -/
theorem cache_replay_failure_falls_through_witness :
    logStatuses (process_download_request envReplayFail urlW 5) = ["success"] ∧
    cachedSendCount (process_download_request envReplayFail urlW 5) = 1 := by
  have h := cache_replay_failure_falls_through envReplayFail urlW 5 cachedW rfl rfl
  refine ⟨?_, h.2.2.2.1⟩
  rw [h.1]
  rfl

/-- C5: when the run reaches transmission (no successful replay, metadata ok,
validation ok, download ok) and the transmission fails, no cache store is
performed and the single audit record carries status `error`. -/
theorem transport_failure_no_cache_store (env : PipelineEnv) (u : Urlm) (chat : ℤ)
    (info : MediaInfo) (media : DownloadedMedia)
    (hro : hitReplayOk env = false)
    (hm : env.metadata = .ok info)
    (hv : validate_media_metadata info = .ok ())
    (hd : env.downloadResult = .ok media)
    (ht : transmit_success env media = none) :
    storeCount (process_download_request env u chat) = 0 ∧
    logStatuses (process_download_request env u chat) = ["error"] := by
  have hs : fullRunStatus env = "error" := by
    unfold fullRunStatus
    rw [hm]
    dsimp only
    rw [hv]
    dsimp only
    rw [hd]
    dsimp only
    rw [ht]
    rfl
  obtain ⟨h1, h2, h3, h4, h5⟩ := process_props env u chat
  constructor
  · rw [h2, if_neg]
    intro hcontra
    rw [hs] at hcontra
    exact absurd hcontra.2 (by decide)
  · rw [h1, hro, hs]
    simp

def envSendFail : PipelineEnv :=
  ⟨none, true, .ok singleSmall, .ok (.Single itemW), none, none⟩

/-- C5 witness: a successful download whose single-item send errors stores
nothing and is audited as `error`. -/
theorem transport_failure_no_cache_store_witness :
    storeCount (process_download_request envSendFail urlW 5) = 0 ∧
    logStatuses (process_download_request envSendFail urlW 5) = ["error"] :=
  transport_failure_no_cache_store envSendFail urlW 5 singleSmall (.Single itemW)
    rfl rfl rfl rfl rfl

/-- C9: with the replay path not taken, a metadata-fetch failure is audited as
`validation_error`, exactly like a validation-rule rejection, while a download
failure and a transmission failure are audited as `error` — the audit log does
not distinguish upstream metadata failures from user-facing validation
rejections. -/
theorem metadata_failure_audited_validation_error (env : PipelineEnv) (u : Urlm) (chat : ℤ)
    (hro : hitReplayOk env = false) :
    (∀ e, env.metadata = .error e →
      logStatuses (process_download_request env u chat) = ["validation_error"]) ∧
    (∀ info ve, env.metadata = .ok info → validate_media_metadata info = .error ve →
      logStatuses (process_download_request env u chat) = ["validation_error"]) ∧
    (∀ info e, env.metadata = .ok info → validate_media_metadata info = .ok () →
      env.downloadResult = .error e →
      logStatuses (process_download_request env u chat) = ["error"]) ∧
    (∀ info media, env.metadata = .ok info → validate_media_metadata info = .ok () →
      env.downloadResult = .ok media → transmit_success env media = none →
      logStatuses (process_download_request env u chat) = ["error"]) := by
  obtain ⟨h1, h2, h3, h4, h5⟩ := process_props env u chat
  rw [hro] at h1
  simp only [Bool.false_eq_true, if_false] at h1
  refine ⟨fun e he => ?_, fun info ve hm hv => ?_, fun info e hm hv hd => ?_,
    fun info media hm hv hd ht => ?_⟩
  · rw [h1]
    unfold fullRunStatus
    rw [he]
  · rw [h1]
    unfold fullRunStatus
    rw [hm]
    dsimp only
    rw [hv]
  · rw [h1]
    unfold fullRunStatus
    rw [hm]
    dsimp only
    rw [hv]
    dsimp only
    rw [hd]
  · rw [h1]
    unfold fullRunStatus
    rw [hm]
    dsimp only
    rw [hv]
    dsimp only
    rw [hd]
    dsimp only
    rw [ht]
    rfl

def envFetchFail : PipelineEnv :=
  ⟨none, true, .error (.CommandFailed "private video"), .error (.CommandFailed "x"), none, none⟩

/-- C9 witness: a failed metadata fetch on a cache miss is audited as
`validation_error`. -/
theorem metadata_failure_audited_validation_error_witness :
    logStatuses (process_download_request envFetchFail urlW 5) = ["validation_error"] :=
  (metadata_failure_audited_validation_error envFetchFail urlW 5 rfl).1
    (.CommandFailed "private video") rfl

/-- C1 counterexample: for a Group whose item carries a thumbnail path, the
guard built by `from_downloaded_media` does not hold that thumbnail path — the
group arm collects file paths only. -/
theorem guard_misses_group_thumbnail :
    "t" ∉ (FileCleanupGuard.from_downloaded_media
      (.Group [⟨"f", .Video, some "t"⟩])).paths := by decide

/-- C1, amended: the guard holds, and on drop submits for deletion exactly
once each, the Single item's file path plus its thumbnail path when present,
and for a Group every item's file path only (group items never carry
thumbnail paths — the downloader attaches none, cf. the group-thumbnail
invariant); the submissions happen on every run that reaches a successful
download, whether or not transmission succeeded. -/
theorem cleanup_guard_exact_submissions (env : PipelineEnv) (u : Urlm) (chat : ℤ)
    (info : MediaInfo) (media : DownloadedMedia)
    (hro : hitReplayOk env = false)
    (hm : env.metadata = .ok info)
    (hv : validate_media_metadata info = .ok ())
    (hd : env.downloadResult = .ok media) :
    deletions (process_download_request env u chat) =
      (FileCleanupGuard.from_downloaded_media media).drop_submissions ∧
    (FileCleanupGuard.from_downloaded_media media).drop_submissions =
      (match media with
       | .Single item => item.filepath :: item.thumbnail_filepath.toList
       | .Group items => items.map (·.filepath)) ∧
    (∀ p, (deletions (process_download_request env u chat)).count p =
      ((FileCleanupGuard.from_downloaded_media media).drop_submissions).count p) := by
  obtain ⟨h1, h2, h3, h4, h5⟩ := process_props env u chat
  have hdel : deletions (process_download_request env u chat) =
      (FileCleanupGuard.from_downloaded_media media).drop_submissions := by
    rw [h5, hro]
    simp only [Bool.false_eq_true, if_false]
    unfold expectedDeletions
    rw [hm]
    dsimp only
    rw [hv]
    dsimp only
    rw [hd]
  refine ⟨hdel, ?_, fun p => by rw [hdel]⟩
  cases media with
  | Single item =>
    obtain ⟨fp, mt, th⟩ := item
    cases th <;> rfl
  | Group items => rfl

def envSendFail2 : PipelineEnv :=
  ⟨none, true, .ok singleSmall, .ok (.Single itemW), none, none⟩

/-- C1 witness: on a run whose transmission fails, the file and its thumbnail
are each submitted for deletion exactly once. -/
theorem cleanup_guard_exact_submissions_witness :
    deletions (process_download_request envSendFail2 urlW 9) =
      ["/tmp/video.mp4", "/tmp/thumb.jpg"] := by
  have h := cleanup_guard_exact_submissions envSendFail2 urlW 9 singleSmall (.Single itemW)
    rfl rfl rfl rfl
  rw [h.1]
  rfl

end Crabberbot
